import Mathlib

/-!
Verification development for the newdns authoritative DNS server library.

The Go sources are shallowly embedded: pure functions become Lean functions,
Go `error` returns become `Option`/`Except`-style results, `time.Duration`
(an int64 of nanoseconds) becomes `Int`, and the request/response flow of the
server becomes a function from a request structure to an output structure.
Strings are treated as sequences of characters; the sources only ever inspect
ASCII content, where Go's byte indexing and Lean's character indexing agree.

External collaborators (the miekg/dns wire codec and Go's net/strings
packages) are modelled by small executable functions that reproduce the
behaviour the library relies on; each such model is marked in its doc comment.
-/

namespace newdns

set_option maxRecDepth 40000

/-! ## Character and list helpers (models of Go strings primitives) -/

/-- Model of Go `strings.ToLower` restricted to ASCII, which is the only
content the library compares (DNS names).  -/
def lowerChar (c : Char) : Char :=
  if 'A' ≤ c ∧ c ≤ 'Z' then Char.ofNat (c.toNat + 32) else c

/-- Lowercase a character list. -/
def lowerL (l : List Char) : List Char :=
  l.map lowerChar

/-- Lowercase a string, as Go `strings.ToLower` does on ASCII input. -/
def lowerStr (s : String) : String :=
  String.mk (lowerL s.data)

/-- Model of Go `strings.Split(s, sep)` for a one-character separator:
splits the list at every occurrence of `c`, keeping empty segments. -/
def splitChar (c : Char) : List Char → List (List Char)
  | [] => [[]]
  | x :: xs =>
    if x = c then [] :: splitChar c xs
    else
      match splitChar c xs with
      | h :: t => (x :: h) :: t
      | [] => [[x]]

/-- `splitChar` never returns the empty list. -/
theorem splitChar_ne_nil (c : Char) (l : List Char) : splitChar c l ≠ [] := by
  cases l with
  | nil => simp [splitChar]
  | cons x xs =>
    simp only [splitChar]
    by_cases h : x = c
    · simp [h]
    · simp only [h, if_false]
      cases splitChar c xs <;> simp

/-- Characterization of `splitChar`: the first segment is everything before
the first separator, and the rest is the split of what follows it. -/
theorem splitChar_eq (c : Char) (l : List Char) :
    splitChar c l =
      l.takeWhile (fun x => !(x = c : Bool)) ::
        (if l.contains c then
          splitChar c ((l.dropWhile (fun x => !(x = c : Bool))).tail)
        else []) := by
  induction l with
  | nil => simp [splitChar]
  | cons x xs ih =>
    by_cases h : x = c
    · subst h
      simp [splitChar, List.takeWhile, List.dropWhile]
    · have h' : ¬ c = x := fun hc => h hc.symm
      have hb : (x == c) = false := by simp [h]
      simp only [splitChar, h, if_false, List.takeWhile, List.dropWhile,
        List.contains_cons, hb, decide_eq_true_eq]
      rw [ih]
      simp [h, h']

/-- Model of Go `strings.Index(hay, needle)`: position of the first occurrence
of `needle` in `hay`, if any (`Index` returns 0 for an empty needle). -/
def firstIndexOf (needle : List Char) : List Char → Option Nat
  | [] => if needle.isPrefixOf ([] : List Char) then some 0 else none
  | x :: t =>
    if needle.isPrefixOf (x :: t) then some 0
    else (firstIndexOf needle t).map (· + 1)

/-- `needle` occurs in `hay` at position `i`. -/
def occursAt (hay needle : List Char) (i : Nat) : Bool :=
  needle.isPrefixOf (hay.drop i)

theorem firstIndexOf_none (needle hay : List Char)
    (h : firstIndexOf needle hay = none) : ∀ j, occursAt hay needle j = false := by
  induction hay generalizing needle with
  | nil =>
    intro j
    simp only [firstIndexOf] at h
    cases hp : needle.isPrefixOf ([] : List Char) with
    | true => rw [hp] at h; simp at h
    | false => simpa [occursAt, List.drop_nil] using hp
  | cons x t ih =>
    intro j
    simp only [firstIndexOf] at h
    cases hp : needle.isPrefixOf (x :: t) with
    | true => rw [hp] at h; simp at h
    | false =>
      rw [hp] at h
      simp only [Bool.false_eq_true, if_false, Option.map_eq_none'] at h
      cases j with
      | zero => simpa [occursAt] using hp
      | succ j => simpa [occursAt, List.drop] using ih needle h j

theorem firstIndexOf_some (needle hay : List Char) (i : Nat)
    (h : firstIndexOf needle hay = some i) :
    occursAt hay needle i = true ∧ ∀ j < i, occursAt hay needle j = false := by
  induction hay generalizing needle i with
  | nil =>
    simp only [firstIndexOf] at h
    cases hp : needle.isPrefixOf ([] : List Char) with
    | true =>
      rw [hp] at h
      simp at h
      subst h
      exact ⟨by simpa [occursAt] using hp, by omega⟩
    | false => rw [hp] at h; simp at h
  | cons x t ih =>
    simp only [firstIndexOf] at h
    cases hp : needle.isPrefixOf (x :: t) with
    | true =>
      rw [hp] at h
      simp at h
      subst h
      exact ⟨by simpa [occursAt] using hp, by omega⟩
    | false =>
      rw [hp] at h
      simp only [Bool.false_eq_true, if_false] at h
      match hi : firstIndexOf needle t with
      | none => rw [hi] at h; simp at h
      | some k =>
        rw [hi] at h
        simp only [Option.map_some', Option.some.injEq] at h
        subst h
        obtain ⟨h1, h2⟩ := ih needle k hi
        refine ⟨by simpa [occursAt] using h1, ?_⟩
        intro j hj
        cases j with
        | zero => simpa [occursAt] using hp
        | succ j =>
          have := h2 j (by omega)
          simpa [occursAt] using this

theorem firstIndexOf_of_first (needle hay : List Char) (i : Nat)
    (h1 : occursAt hay needle i = true)
    (h2 : ∀ j < i, occursAt hay needle j = false) :
    firstIndexOf needle hay = some i := by
  induction hay generalizing needle i with
  | nil =>
    have hp : needle.isPrefixOf ([] : List Char) = true := by
      simpa [occursAt] using h1
    have hi : i = 0 := by
      by_contra hne
      have h0 := h2 0 (by omega)
      simp only [occursAt, List.drop_nil] at h0
      simp only [occursAt, List.drop_nil] at h1
      rw [h1] at h0
      exact Bool.noConfusion h0
    subst hi
    simp [firstIndexOf, hp]
  | cons x t ih =>
    cases i with
    | zero =>
      have hp : needle.isPrefixOf (x :: t) = true := by simpa [occursAt] using h1
      simp [firstIndexOf, hp]
    | succ i =>
      have hp : needle.isPrefixOf (x :: t) = false := by
        have := h2 0 (by omega)
        simpa [occursAt] using this
      have hrec : firstIndexOf needle t = some i := by
        apply ih
        · simpa [occursAt] using h1
        · intro j hj
          have := h2 (j + 1) (by omega)
          simpa [occursAt] using this
      simp [firstIndexOf, hp, hrec]

/-! ## Models of the external miekg/dns name helpers

The wire codec is an out-of-scope collaborator; these small models reproduce
the name-syntax behaviour the library relies on (plain ASCII names without
escape sequences, which is all the embedded claims exercise). -/

/-- Model of `dns.IsFqdn`: the name ends in an unescaped dot. -/
def isFqdn (s : String) : Bool :=
  match s.data.reverse with
  | '.' :: rest => (rest.takeWhile (fun c => c = '\\')).length % 2 = 0
  | _ => false

/-- Model of `dns.IsDomainName` for plain names: nonempty, at most 254
characters, every dot-separated label nonempty and at most 63 characters
(the root name "." is valid). -/
def isDomainName (s : String) : Bool :=
  if s = "." then true
  else
    let core := if isFqdn s then s.data.dropLast else s.data
    ¬ core.isEmpty ∧ core.length ≤ 254 ∧
      (splitChar '.' core).all (fun l => ¬ l.isEmpty ∧ l.length ≤ 63)

/-- Model of `dns.SplitDomainName`: the labels of a name, with a trailing
root dot removed; the root name and the empty name have no labels. -/
def domainLabels (s : String) : List (List Char) :=
  if s = "." ∨ s = "" then []
  else splitChar '.' (if isFqdn s then s.data.dropLast else s.data)

/-- Model of `dns.IsSubDomain` (via `CompareDomainName`): the zone's labels
are a case-insensitive suffix of the name's labels. -/
def isSubDomain (zone name : String) : Bool :=
  ((domainLabels zone).map lowerL).isSuffixOf ((domainLabels name).map lowerL)

/-! ## src/tools.go -/

/-- `IsDomain` from src/tools.go: a valid domain, fully qualified when
requested. -/
def IsDomain (name : String) (fqdn : Bool) : Bool :=
  isDomainName name && (!fqdn || (fqdn && isFqdn name))

/-- `InZone` from src/tools.go: whether `name` lies in `zone`; false whenever
either argument is not a valid domain. -/
def InZone (zone name : String) : Bool :=
  if ¬ (IsDomain zone false ∧ IsDomain name false) then false
  else isSubDomain zone name

/-- Join labels with dots, as Go `strings.Join(labels, ".")`. -/
def joinDots : List (List Char) → List Char
  | [] => []
  | [l] => l
  | l :: t => l ++ '.' :: joinDots t

/-- `TrimZone` from src/tools.go: removes the zone's labels from the end of
the name; identity when the name is not in the zone. -/
def TrimZone (zone name : String) : String :=
  if ¬ InZone zone name then name
  else
    let count := (domainLabels zone).length
    let labels := domainLabels name
    String.mk (joinDots (labels.take (labels.length - count)))

/-- `transferCase` from src/tools.go: takes the part of `source` starting at
the first case-insensitive occurrence of `destination`, or `destination`
itself when there is none.  (Go slices by byte index; on the ASCII content
the library handles this coincides with character indexing.) -/
def transferCase (source destination : String) : String :=
  match firstIndexOf (lowerL destination.data) (lowerL source.data) with
  | none => destination
  | some i => String.mk (source.data.drop i)

/-- Escape every dot with a backslash, as
`strings.ReplaceAll(s, ".", "\\.")` in src/tools.go. -/
def escapeDots (l : List Char) : List Char :=
  l.flatMap (fun c => if c = '.' then ['\\', '.'] else [c])

/-- Model of `dns.Fqdn`: append a root dot unless already fully qualified. -/
def goFqdn (s : String) : String :=
  if isFqdn s then s else s ++ "."

/-- `emailToDomain` from src/tools.go.  The Go function indexes the result of
`strings.Split(email, "@")` at positions 0 and 1; when the email contains no
`@` the index 1 is out of range and the function panics, modelled here by
`none`. -/
def emailToDomain (email : String) : Option String :=
  match splitChar '@' email.data with
  | p0 :: p1 :: _ => some (goFqdn (String.mk (escapeDots p0) ++ "." ++ String.mk p1))
  | _ => none

/-- `durationToTime` from src/tools.go: `uint32(math.Ceil(d.Seconds()))`.
Durations are int64 nanosecond counts; the ceiling is modelled exactly over
the integers (the float64 detour of the source is exact for every duration
the claims exercise), and the uint32 conversion as reduction mod `2^32`
(negative durations never reach this function in the embedded paths). -/
def durationToTime (d : Int) : Nat :=
  ((d + 999999999) / 1000000000 % 4294967296).toNat

/-- Model of Go int64 wrap-around for sums of durations. -/
def wrap64 (x : Int) : Int :=
  (x + 9223372036854775808) % 18446744073709551616 - 9223372036854775808

/-! ## src/record.go: types and records -/

/-- DNS type codes, as in src/record.go (`Type` is a `uint16`). -/
def TypeA : Nat := 1

def TypeNS : Nat := 2

def TypeCNAME : Nat := 5

def TypeSOA : Nat := 6

def TypeMX : Nat := 15

def TypeTXT : Nat := 16

def TypeAAAA : Nat := 28

def TypeANY : Nat := 255

/-- `Type.valid` from src/record.go: the record types the query path
supports. -/
def typeValid (t : Nat) : Bool :=
  t = TypeA ∨ t = TypeAAAA ∨ t = TypeCNAME ∨ t = TypeMX ∨ t = TypeTXT

/-- Modelled from the spec: `Type.supported()` is referenced by
src/set.go but defined nowhere under src/; per the spec the closed
enumeration of supported record-set types is A, AAAA, CNAME, MX, TXT, NS. -/
def typeSupported (t : Nat) : Bool :=
  t = TypeA ∨ t = TypeAAAA ∨ t = TypeCNAME ∨ t = TypeMX ∨ t = TypeTXT ∨ t = TypeNS

/-- `Record` from src/record.go. -/
structure Record where
  Address : String
  Priority : Int
  Data : List String
  deriving Repr, DecidableEq

/-- Decimal value of a digit list. -/
def digitsVal (l : List Char) : Nat :=
  l.foldl (fun acc c => acc * 10 + (c.toNat - 48)) 0

/-- Model of Go `net.ParseIP` succeeding with a 4-byte form: a dotted quad
of decimal octets without leading zeros. -/
def isDottedQuad (s : String) : Bool :=
  let parts := splitChar '.' s.data
  parts.length = 4 ∧ parts.all (fun p =>
    ¬ p.isEmpty ∧ p.length ≤ 3 ∧ p.all Char.isDigit ∧
    digitsVal p ≤ 255 ∧ (p.headD '0' = '0' → p.length = 1))

/-- Model of Go `net.ParseIP` succeeding at all (`To16` non-nil): either a
dotted quad or a colon-separated IPv6 literal of hex groups. -/
def parseIPok (s : String) : Bool :=
  isDottedQuad s ||
    (s.data.contains ':' && ¬ s.data.isEmpty &&
      s.data.all (fun c =>
        c.isDigit || ('a' ≤ c ∧ c ≤ 'f') || ('A' ≤ c ∧ c ≤ 'F') ||
          c = ':' || c = '.'))

/-- Structured record-validation errors of `Record.Validate`
(src/record.go). -/
inductive RecErr where
  | invalidIPv4
  | invalidIPv6
  | invalidDomain
  | missingData
  | dataTooLong
  deriving Repr, DecidableEq

/-- `Record.Validate(typ)` from src/record.go: type-indexed validation of a
single record. -/
def recordValidateErr (typ : Nat) (r : Record) : Option RecErr :=
  if typ = TypeA ∧ ¬ isDottedQuad r.Address then some .invalidIPv4
  else if typ = TypeAAAA ∧ ¬ parseIPok r.Address then some .invalidIPv6
  else if (typ = TypeCNAME ∨ typ = TypeMX) ∧ ¬ IsDomain r.Address true then
    some .invalidDomain
  else if typ = TypeTXT ∧ r.Data.isEmpty then some .missingData
  else if typ = TypeTXT ∧ r.Data.any (fun d => 255 < d.length) then
    some .dataTooLong
  else none

/-! ## src/set.go: record sets -/

/-- `Set` from src/set.go (the Go field `Type` is `typ` here: `Type` is a
reserved word in Lean). -/
structure SSet where
  Name : String
  typ : Nat
  Records : List Record
  TTL : Int
  deriving Repr, DecidableEq

/-- Structured errors of `Set.Validate` (src/set.go). -/
inductive SetErr where
  | invalidName
  | unsupportedType
  | missingRecords
  | multipleCNAME
  | invalidRecord (e : RecErr)
  | duplicateAddress
  deriving Repr, DecidableEq

/-- First validation error among the records, in order (the Go loop returns
on the first failure). -/
def firstRecordError (typ : Nat) : List Record → Option RecErr
  | [] => none
  | r :: t =>
    match recordValidateErr typ r with
    | some e => some e
    | none => firstRecordError typ t

/-- The adjacent-duplicate scan of src/set.go lines 57-61: compares only
`Records[i]` with `Records[i+1]`. -/
def hasAdjacentDup : List String → Bool
  | [] => false
  | [_] => false
  | a :: b :: t => a = b || hasAdjacentDup (b :: t)

/-- `Set.Validate` from src/set.go, as the error it returns (`none` means
the set is accepted; on success Go additionally defaults the TTL to 5m,
which the query path never observes because it validates a copy). -/
def setValidateErr (s : SSet) : Option SetErr :=
  if ¬ IsDomain s.Name true then some .invalidName
  else if ¬ typeSupported s.typ then some .unsupportedType
  else if s.Records.isEmpty then some .missingRecords
  else if s.typ = TypeCNAME ∧ 1 < s.Records.length then some .multipleCNAME
  else
    match firstRecordError s.typ s.Records with
    | some e => some (.invalidRecord e)
    | none =>
      if 1 < s.Records.length ∧ s.typ ≠ TypeTXT ∧
          hasAdjacentDup (s.Records.map Record.Address) then
        some .duplicateAddress
      else none

/-! ## src/zone.go: zones and zone validation -/

/-- `Zone` from src/zone.go.  Durations are int64 nanosecond counts. -/
structure Zone where
  Name : String
  MasterNameServer : String
  AllNameServers : List String
  AdminEmail : String
  Refresh : Int
  Retry : Int
  Expire : Int
  SOATTL : Int
  NSTTL : Int
  MinTTL : Int
  Handler : String → Except String (List SSet)

/-- Structured errors of `Zone.Validate` (src/zone.go). -/
inductive ZoneErr where
  | nameNotFQDN
  | masterNotFQDN
  | missingNameServers
  | nsNotFQDN
  | badAdminEmail
  | retryNotLessThanRefresh
  | expireTooSmall
  deriving Repr, DecidableEq

/-- Outcome of `Zone.Validate`: an error, a Go runtime panic (reachable via
`emailToDomain` on an email without `@`), or success with the defaults
applied (Go mutates the zone in place). -/
inductive VRes where
  | panicked
  | err (e : ZoneErr)
  | ok (z : Zone)

/-- Ascending insertion into a sorted list of strings. -/
def insertStr (s : String) : List String → List String
  | [] => [s]
  | x :: t => if s ≤ x then s :: x :: t else x :: insertStr s t

/-- Model of Go `sort.Strings`: sort ascending. -/
def sortStrings : List String → List String
  | [] => []
  | x :: t => insertStr x (sortStrings t)

def nsPerSecond : Int := 1000000000

def minuteNS : Int := 60 * nsPerSecond

def hourNS : Int := 3600 * nsPerSecond

/-- The admin email after defaulting: `hostmaster@<Name>` when empty
(src/zone.go lines 91-94). -/
def defaultEmail (z : Zone) : String :=
  if z.AdminEmail = "" then "hostmaster@" ++ z.Name else z.AdminEmail

/-- A timer after defaulting: the fallback when the configured value is the
zero duration. -/
def defDur (v dflt : Int) : Int :=
  if v = 0 then dflt else v

/-- `Zone.Validate` from src/zone.go: field checks, defaulting of the email
and the six timers, and the two timer invariants.  The Go sum
`z.Refresh+z.Retry` is int64 addition, modelled by `wrap64`. -/
def zoneValidate (z : Zone) : VRes :=
  if ¬ IsDomain z.Name true then .err .nameNotFQDN
  else if ¬ IsDomain z.MasterNameServer true then .err .masterNotFQDN
  else if z.AllNameServers.length < 1 then .err .missingNameServers
  else if ¬ z.AllNameServers.all (fun ns => IsDomain ns true) then
    .err .nsNotFQDN
  else
    let servers := sortStrings z.AllNameServers
    let email := defaultEmail z
    match emailToDomain email with
    | none => .panicked
    | some mbox =>
      if ¬ IsDomain mbox true then .err .badAdminEmail
      else
        let refresh := defDur z.Refresh (6 * hourNS)
        let retry := defDur z.Retry hourNS
        let expire := defDur z.Expire (72 * hourNS)
        let soattl := defDur z.SOATTL (15 * minuteNS)
        let nsttl := defDur z.NSTTL (48 * hourNS)
        let minttl := defDur z.MinTTL (5 * minuteNS)
        if refresh ≤ retry then .err .retryNotLessThanRefresh
        else if expire < wrap64 (refresh + retry) then .err .expireTooSmall
        else .ok { z with
          AllNameServers := servers, AdminEmail := email,
          Refresh := refresh, Retry := retry, Expire := expire,
          SOATTL := soattl, NSTTL := nsttl, MinTTL := minttl }

/-! ## src/server.go: the lookup loop (lines 687-780) -/

/-- `result` from src/server.go: a matched set together with the owner name
it was found at. -/
structure LookupResult where
  name : String
  set : SSet
  deriving Repr, DecidableEq

/-- Errors the lookup loop can produce.  `handlerErr` and `setErr` carry the
causes from the zone handler and set validation; `panicIndex` marks the
(unreachable after validation) Go index-out-of-range on `Records[0]`;
`notInZone` and `stepLimit` belong to the spec-modelled `Zone.Lookup`. -/
inductive LookupErr where
  | handlerErr (e : String)
  | setErr (e : SetErr)
  | multipleSets
  | apexCNAME
  | cnameNotStandalone
  | panicIndex
  | notInZone
  | stepLimit
  deriving Repr, DecidableEq

/-- Return value of the lookup loop: the Go triple
`([]result, bool, error)`. -/
inductive LookupRet where
  | ok (res : List LookupResult) (avl : Bool)
  | err (e : LookupErr)
  deriving Repr, DecidableEq

/-- First validation error among the sets, in order (the Go loop returns on
the first failing set). -/
def firstSetError : List SSet → Option SetErr
  | [] => none
  | s :: t =>
    match setValidateErr s with
    | some e => some e
    | none => firstSetError t

/-- The `counters` check of src/server.go lines 725-730: some type occurs in
more than one set. -/
def hasDupTypes : List Nat → Bool
  | [] => false
  | t :: r => r.contains t || hasDupTypes r

/-- One unfolding of the `for i := 0; ; i++` loop of `Server.lookup`
(src/server.go lines 687-780).  `fuel` bounds how many iterations are
unfolded; `none` means the loop was still running after `fuel` iterations
(the Go loop itself has no bound).  `i` is the Go iteration counter, `res`
the accumulated results. -/
def lookupGo (z : Zone) (needle : List Nat) :
    Nat → Nat → String → List LookupResult → Option LookupRet
  | 0, _, _, _ => none
  | fuel + 1, i, name, res =>
    match z.Handler (TrimZone z.Name name) with
    | .error e => some (.err (.handlerErr e))
    | .ok sets =>
      if i = 0 ∧ sets = [] then some (.ok [] false)
      else
        match firstSetError sets with
        | some e => some (.err (.setErr e))
        | none =>
          if hasDupTypes (sets.map SSet.typ) then some (.err .multipleSets)
          else if (∃ s ∈ sets, s.typ = TypeCNAME) ∧ name = z.Name then
            some (.err .apexCNAME)
          else if (∃ s ∈ sets, s.typ = TypeCNAME) ∧ 1 < sets.length then
            some (.err .cnameNotStandalone)
          else if (∃ s ∈ sets, s.typ = TypeCNAME) ∧ ¬ TypeCNAME ∈ needle then
            match sets with
            | [] => some (.err .panicIndex)
            | s0 :: _ =>
              match s0.Records with
              | [] => some (.err .panicIndex)
              | r0 :: _ =>
                if InZone z.Name r0.Address then
                  lookupGo z needle fuel (i + 1) r0.Address
                    (res ++ [{ name := name, set := s0 }])
                else some (.ok (res ++ [{ name := name, set := s0 }]) false)
          else
            let res' :=
              match sets.find? (fun s => decide (s.typ ∈ needle)) with
              | some s => res ++ [{ name := name, set := s }]
              | none => res
            if res' = [] then some (.ok [] true)
            else some (.ok res' false)

/-- `Server.lookup` from src/server.go, unfolded for `fuel` iterations from
the initial state of the loop. -/
def lookup (z : Zone) (name : String) (needle : List Nat) (fuel : Nat) :
    Option LookupRet :=
  lookupGo z needle fuel 0 name []

/-- Modelled from the spec: `Zone.Lookup` (the zone-level lookup of zone.go
in the released library) is absent from src/ — only its tests
(zone_test.go) and its caller (the handler of src/unnamed/part_001) are
present.  Per spec §4.2 it requires `name` to lie in the zone and otherwise
fails with a NotInZone error, then runs the same loop as `Server.lookup`
with a small step limit (the spec suggests 8). -/
def zoneLookup (z : Zone) (name : String) (needle : List Nat) : LookupRet :=
  if ¬ InZone z.Name name then .err .notInZone
  else
    match lookupGo z needle 8 0 name [] with
    | some r => r
    | none => .err .stepLimit

/-! ## src/unnamed/part_001: the server pipeline -/

/-- Wire resource records as the response builder creates them.  Payloads
keep the source strings (the IP parsing of the codec is out of scope); the
OPT pseudo-record carries the advertised buffer size. -/
inductive RR where
  | a (owner : String) (ttl : Nat) (addr : String)
  | aaaa (owner : String) (ttl : Nat) (addr : String)
  | cname (owner : String) (ttl : Nat) (target : String)
  | mx (owner : String) (ttl : Nat) (pref : Nat) (target : String)
  | txt (owner : String) (ttl : Nat) (data : List String)
  | ns (owner : String) (ttl : Nat) (target : String)
  | soa (owner : String) (ttl : Nat) (mname rname : String)
      (serial refresh retry expire minttl : Nat)
  | opt (udpsize : Nat)
  deriving Repr, DecidableEq

/-- The TTL field of a record (0 for the OPT pseudo-record, which has
none). -/
def rrTTL : RR → Nat
  | .a _ ttl _ => ttl
  | .aaaa _ ttl _ => ttl
  | .cname _ ttl _ => ttl
  | .mx _ ttl _ _ => ttl
  | .txt _ ttl _ => ttl
  | .ns _ ttl _ => ttl
  | .soa _ ttl _ _ _ _ _ _ _ => ttl
  | .opt _ => 0

/-- A DNS response message, with the fields the embedded paths touch. -/
structure DnsMsg where
  rcode : Nat
  authoritative : Bool
  truncated : Bool
  answer : List RR
  ns : List RR
  extra : List RR
  deriving Repr, DecidableEq

/-- EDNS information of a request: advertised UDP size and version. -/
structure Edns where
  udpsize : Nat
  version : Nat
  deriving Repr, DecidableEq

/-- The question of a request. -/
structure DnsQuestion where
  Name : String
  Qtype : Nat
  Qclass : Nat
  deriving Repr, DecidableEq

/-- An accepted request: exactly one question (the accept filter enforces
`QDCOUNT == 1`) and optional EDNS. -/
structure DnsReq where
  question : DnsQuestion
  edns : Option Edns
  deriving Repr, DecidableEq

/-- `Config` from src/unnamed/part_001 (the logger is pure observation and
is not modelled). -/
structure Config where
  BufferSize : Int
  Handler : String → Except String (Option Zone)

/-- `NewServer` from src/unnamed/part_001: a non-positive buffer size
defaults to 1220. -/
def newServer (c : Config) : Config :=
  if c.BufferSize ≤ 0 then { c with BufferSize := 1220 } else c

/-- The SOA synthesized by `writeError` and `writeSOAResponse`
(src/unnamed/part_001 lines 323-337 and 380-394).  `emailToDomain` is total
here because every caller passes a validated zone. -/
def mkSOA (z : Zone) : RR :=
  .soa z.Name (durationToTime z.SOATTL) z.MasterNameServer
    ((emailToDomain z.AdminEmail).getD "") 1 (durationToTime z.Refresh)
    (durationToTime z.Retry) (durationToTime z.Expire)
    (durationToTime z.MinTTL)

/-- The NS records appended for a zone, with the given owner name
(src/unnamed/part_001 lines 304-315 and elsewhere). -/
def nsRRs (z : Zone) (owner : String) : List RR :=
  z.AllNameServers.map (fun n => .ns owner (durationToTime z.NSTTL) n)

/-- The effective UDP payload limit of `writeMessage`: the client's
advertised EDNS size when present, 512 otherwise (src/unnamed/part_001
lines 402-406). -/
def effectiveBuffer (rq : DnsReq) : Nat :=
  match rq.edns with
  | some e => e.udpsize
  | none => 512

/-- `Server.writeMessage` from src/unnamed/part_001 lines 401-434:
truncates oversized UDP replies.  `lenFn` stands for the wire-length
computation `rs.Len()` of the external codec. -/
def writeMessage (lenFn : DnsMsg → Nat) (rq : DnsReq) (isUDP : Bool)
    (rs : DnsMsg) : DnsMsg :=
  if isUDP ∧ effectiveBuffer rq < lenFn rs then
    { rs with
        truncated := true, answer := [], ns := [],
        extra := [], rcode := 0 }
  else rs

/-- `Server.writeError` from src/unnamed/part_001 lines 374-399: set the
code, append the zone's SOA to the authority section when a zone is given,
and send. -/
def writeError (lenFn : DnsMsg → Nat) (rq : DnsReq) (isUDP : Bool)
    (rs : DnsMsg) (zone : Option Zone) (code : Nat) : DnsMsg :=
  let rs := { rs with rcode := code }
  let rs :=
    match zone with
    | some z => { rs with ns := rs.ns ++ [mkSOA z] }
    | none => rs
  writeMessage lenFn rq isUDP rs

/-- `Server.writeSOAResponse` from src/unnamed/part_001 lines 321-354. -/
def writeSOAResponse (lenFn : DnsMsg → Nat) (rq : DnsReq) (isUDP : Bool)
    (rs : DnsMsg) (z : Zone) : DnsMsg :=
  writeMessage lenFn rq isUDP
    { rs with answer := rs.answer ++ [mkSOA z], ns := rs.ns ++ nsRRs z z.Name }

/-- `Server.writeNSResponse` from src/unnamed/part_001 lines 356-372. -/
def writeNSResponse (lenFn : DnsMsg → Nat) (rq : DnsReq) (isUDP : Bool)
    (rs : DnsMsg) (z : Zone) : DnsMsg :=
  writeMessage lenFn rq isUDP { rs with answer := rs.answer ++ nsRRs z z.Name }

/-- `Server.convert` from src/unnamed/part_001 lines 442-493: convert a set
into wire records; the TTL is the set's, raised to the zone minimum when
below it. -/
def serverConvert (query : String) (z : Zone) (s : SSet) : List RR :=
  let ttl := if s.TTL < z.MinTTL then durationToTime z.MinTTL
             else durationToTime s.TTL
  let nm := transferCase query s.Name
  s.Records.filterMap (fun r =>
    if s.typ = TypeA then some (.a nm ttl r.Address)
    else if s.typ = TypeAAAA then some (.aaaa nm ttl r.Address)
    else if s.typ = TypeCNAME then some (.cname nm ttl (goFqdn r.Address))
    else if s.typ = TypeMX then
      some (.mx nm ttl ((r.Priority.emod 65536).toNat) (goFqdn r.Address))
    else if s.typ = TypeTXT then some (.txt nm ttl r.Data)
    else none)

/-- Outcome of the handler dispatch: the connection is left hanging, a
reply is written, control reaches the zone lookup phase, or a Go panic
escaped zone validation. -/
inductive HandlerOut where
  | hang
  | reply (rs : DnsMsg)
  | toLookup (z : Zone) (name : String) (qtype : Nat)
  | panicked

/-- The dispatch portion of `Server.handler` from src/unnamed/part_001
lines 163-254: class check, reply setup, EDNS echo and version check, ANY
rejection, zone resolution and validation, the SOA/NS apex shortcuts, and
the unsupported-type rejection.  Queries that pass every check continue
into the lookup phase (`toLookup`). -/
def handlerDispatch (cfg : Config) (lenFn : DnsMsg → Nat) (isUDP : Bool)
    (rq : DnsReq) : HandlerOut :=
  let q := rq.question
  if q.Qclass ≠ 1 then .hang
  else
    let rs0 : DnsMsg :=
      { rcode := 0, authoritative := true, truncated := false,
        answer := [], ns := [], extra := [] }
    let rs :=
      match rq.edns with
      | some _ => { rs0 with extra := [.opt ((cfg.BufferSize.emod 65536).toNat)] }
      | none => rs0
    if ∃ e, rq.edns = some e ∧ e.version ≠ 0 then
      .reply (writeError lenFn rq isUDP rs none 16)
    else if q.Qtype = TypeANY then
      .reply (writeError lenFn rq isUDP rs none 4)
    else
      let name := lowerStr q.Name
      match cfg.Handler name with
      | .error _ => .reply (writeError lenFn rq isUDP rs none 2)
      | .ok none =>
        .reply (writeError lenFn rq isUDP { rs with authoritative := false }
          none 5)
      | .ok (some z) =>
        match zoneValidate z with
        | .panicked => .panicked
        | .err _ => .reply (writeError lenFn rq isUDP rs none 2)
        | .ok z' =>
          if q.Qtype = TypeSOA ∧ name = z'.Name then
            .reply (writeSOAResponse lenFn rq isUDP rs z')
          else if q.Qtype = TypeNS ∧ name = z'.Name then
            .reply (writeNSResponse lenFn rq isUDP rs z')
          else if ¬ typeValid q.Qtype then
            .reply (writeError lenFn rq isUDP rs (some z') 3)
          else .toLookup z' name q.Qtype

/-! ## Decidable projections

`Zone` carries its handler function, so `VRes` and `HandlerOut` have no
decidable equality; these projections expose the decidable parts. -/

/-- The error of a validation outcome, if any. -/
def vresErr : VRes → Option ZoneErr
  | .err e => some e
  | _ => none

/-- Whether validation succeeded. -/
def vresIsOk : VRes → Bool
  | .ok _ => true
  | _ => false

/-- Whether validation panicked. -/
def vresIsPanic : VRes → Bool
  | .panicked => true
  | _ => false

/-- The `MinTTL` of the validated zone (0 when validation did not
succeed). -/
def vresMinTTL : VRes → Int
  | .ok z => z.MinTTL
  | _ => 0

/-- The reply written by the dispatch, if any. -/
def replyOf : HandlerOut → Option DnsMsg
  | .reply rs => some rs
  | _ => none

/-! ## Arithmetic helper lemmas -/

/-- Largest duration whose ceiling of seconds still fits in 32 bits. -/
def maxDur : Int := 4294967295 * 1000000000

theorem wrap64_eq_self (x : Int)
    (h1 : -9223372036854775808 ≤ x) (h2 : x < 9223372036854775808) :
    wrap64 x = x := by
  unfold wrap64
  rw [Int.emod_eq_of_lt (by omega) (by omega)]
  omega

theorem durationToTime_le_of_le (a b : Int) (ha : 0 ≤ a) (hb : b ≤ maxDur)
    (hab : a ≤ b) : durationToTime a ≤ durationToTime b := by
  unfold durationToTime
  have h0 : (0 : Int) < 1000000000 := by omega
  have hA0 : 0 ≤ (a + 999999999) / 1000000000 :=
    Int.ediv_nonneg (by omega) (by omega)
  have hAB : (a + 999999999) / 1000000000 ≤ (b + 999999999) / 1000000000 :=
    Int.ediv_le_ediv h0 (by omega)
  have hBlt : (b + 999999999) / 1000000000 < 4294967296 := by
    rw [Int.ediv_lt_iff_lt_mul h0]
    unfold maxDur at hb
    omega
  rw [Int.emod_eq_of_lt hA0 (by omega),
    Int.emod_eq_of_lt (le_trans hA0 hAB) hBlt]
  omega

/-! ## Duplicate-scan helper lemmas -/

/-- The adjacent-duplicate scan succeeds exactly when the list is not a
chain of pairwise-different neighbours. -/
theorem hasAdjacentDup_eq_false_iff (l : List String) :
    hasAdjacentDup l = false ↔ l.Chain' (fun a b => a ≠ b) := by
  induction l with
  | nil => simp [hasAdjacentDup]
  | cons a t ih =>
    cases t with
    | nil => simp [hasAdjacentDup]
    | cons b t' =>
      rw [List.chain'_cons]
      constructor
      · intro h
        simp only [hasAdjacentDup, Bool.or_eq_false_iff, decide_eq_false_iff_not] at h
        exact ⟨h.1, ih.mp h.2⟩
      · intro ⟨h1, h2⟩
        simp only [hasAdjacentDup, Bool.or_eq_false_iff, decide_eq_false_iff_not]
        exact ⟨h1, ih.mpr h2⟩

/-! ## Claim C5: transferCase -/

/-- C5 counterexample: `"ab"` is a case-insensitive suffix of `"abab"`, so
the claim predicts the suffix of length 2 (`"ab"`), but `transferCase`
slices at the first occurrence (index 0) and returns `"abab"`. -/
theorem C5_transferCase_counterexample :
    (lowerL "ab".data).isSuffixOf (lowerL "abab".data) = true ∧
    String.mk ("abab".data.drop ("abab".data.length - "ab".data.length)) = "ab" ∧
    transferCase "abab" "ab" = "abab" ∧
    transferCase "abab" "ab" ≠ "ab" := by
  decide

/-- C5 (amended): `transferCase src dst` returns the part of `src` starting
at the first case-insensitive occurrence of `dst` in `src`, and `dst`
unchanged when `dst` does not occur case-insensitively in `src` at all;
only when that first occurrence is at position `|src| - |dst|` is the
result the case-insensitive-suffix of `src` of length `|dst|` that the
claim describes. -/
theorem C5_transferCase_first_occurrence (src dst : String) :
    ((∀ j, occursAt (lowerL src.data) (lowerL dst.data) j = false) →
      transferCase src dst = dst) ∧
    (∀ i, occursAt (lowerL src.data) (lowerL dst.data) i = true →
      (∀ j < i, occursAt (lowerL src.data) (lowerL dst.data) j = false) →
      transferCase src dst = String.mk (src.data.drop i) ∧
      (i = src.data.length - dst.data.length → dst.data.length ≤ src.data.length →
        (transferCase src dst).data.length = dst.data.length ∧
        (transferCase src dst).data.IsSuffix src.data)) := by
  constructor
  · intro h
    unfold transferCase
    match hf : firstIndexOf (lowerL dst.data) (lowerL src.data) with
    | none => rfl
    | some i =>
      have := (firstIndexOf_some _ _ _ hf).1
      rw [h i] at this
      exact Bool.noConfusion this
  · intro i h1 h2
    have hf : firstIndexOf (lowerL dst.data) (lowerL src.data) = some i :=
      firstIndexOf_of_first _ _ _ h1 h2
    have heq : transferCase src dst = String.mk (src.data.drop i) := by
      unfold transferCase
      rw [hf]
    refine ⟨heq, ?_⟩
    intro hi hlen
    subst hi
    rw [heq]
    constructor
    · show (src.data.drop (src.data.length - dst.data.length)).length =
        dst.data.length
      rw [List.length_drop]
      omega
    · show (src.data.drop (src.data.length - dst.data.length)).IsSuffix src.data
      exact List.drop_suffix _ _

/-- C5 witness: the theorem applied to concrete inputs from the repository's
own test vectors. -/
theorem C5_transferCase_witness :
    transferCase "FOO.com" "bar.com" = "bar.com" ∧
    transferCase "foo.EXAmple.com" "example.com" =
      String.mk ("foo.EXAmple.com".data.drop 4) := by
  constructor
  · exact (C5_transferCase_first_occurrence "FOO.com" "bar.com").1
      (firstIndexOf_none _ _ (by decide))
  · exact ((C5_transferCase_first_occurrence "foo.EXAmple.com" "example.com").2
      4 (by decide) (by decide)).1

/-! ## Claim C8: duplicate addresses in Set.Validate -/

/-- `hasAdjacentDup` only succeeds on lists with at least two elements. -/
theorem hasAdjacentDup_true_length (l : List String)
    (h : hasAdjacentDup l = true) : 1 < l.length := by
  match l with
  | [] => simp [hasAdjacentDup] at h
  | [a] => simp [hasAdjacentDup] at h
  | a :: b :: t => simp

/-- C8 counterexample: a non-TXT set whose first and third records share an
address, with the middle one different; the adjacent-only scan of
src/set.go (which never sorts) accepts it, so `Set.Validate` returns no
duplicate-address error. -/
def sDup : SSet where
  Name := "foo.example.com."
  typ := TypeA
  Records := [{ Address := "1.2.3.4", Priority := 0, Data := [] },
              { Address := "2.3.4.5", Priority := 0, Data := [] },
              { Address := "1.2.3.4", Priority := 0, Data := [] }]
  TTL := 0

theorem C8_duplicate_counterexample :
    sDup.typ ≠ TypeTXT ∧
    sDup.Records.map Record.Address = ["1.2.3.4", "2.3.4.5", "1.2.3.4"] ∧
    setValidateErr sDup = none := by
  decide

/-- C8 (amended): for a set passing the earlier checks whose type is not
TXT, `Set.Validate` reports a duplicate address exactly for *adjacent*
duplicates: when the address list is not a chain of pairwise-different
neighbours the duplicate-address error is returned, and a set with pairwise
distinct addresses passes the whole validation.  (Duplicates at
non-adjacent positions are not detected; src/set.go does not sort.) -/
theorem C8_setValidate_adjacent_duplicates (s : SSet)
    (hname : IsDomain s.Name true = true)
    (hsupp : typeSupported s.typ = true)
    (hnn : ¬ s.Records.isEmpty = true)
    (hcn : ¬ (s.typ = TypeCNAME ∧ 1 < s.Records.length))
    (hrec : firstRecordError s.typ s.Records = none)
    (htxt : s.typ ≠ TypeTXT) :
    (¬ (s.Records.map Record.Address).Chain' (fun a b => a ≠ b) →
      setValidateErr s = some .duplicateAddress) ∧
    ((s.Records.map Record.Address).Pairwise (fun a b => a ≠ b) →
      setValidateErr s = none) := by
  have hbase : setValidateErr s =
      (if 1 < s.Records.length ∧ s.typ ≠ TypeTXT ∧
          hasAdjacentDup (s.Records.map Record.Address) then
        some .duplicateAddress
      else none) := by
    unfold setValidateErr
    rw [if_neg (fun hn => hn hname), if_neg (fun hn => hn hsupp), if_neg hnn,
      if_neg hcn, hrec]
  constructor
  · intro hch
    have hdup : hasAdjacentDup (s.Records.map Record.Address) = true := by
      cases hh : hasAdjacentDup (s.Records.map Record.Address) with
      | true => rfl
      | false => exact absurd ((hasAdjacentDup_eq_false_iff _).mp hh) hch
    have hlen : 1 < s.Records.length := by
      have := hasAdjacentDup_true_length _ hdup
      simpa using this
    rw [hbase, if_pos ⟨hlen, htxt, hdup⟩]
  · intro hpw
    have hch : (s.Records.map Record.Address).Chain' (fun a b => a ≠ b) :=
      hpw.chain'
    have hdup : hasAdjacentDup (s.Records.map Record.Address) = false :=
      (hasAdjacentDup_eq_false_iff _).mpr hch
    rw [hbase, if_neg]
    intro ⟨_, _, hcontra⟩
    rw [hdup] at hcontra
    exact Bool.noConfusion hcontra

/-- An A set with the same address at two adjacent positions. -/
def sAdjDup : SSet where
  Name := "foo.example.com."
  typ := TypeA
  Records := [{ Address := "1.2.3.4", Priority := 0, Data := [] },
              { Address := "1.2.3.4", Priority := 0, Data := [] }]
  TTL := 0

/-- An A set with pairwise distinct addresses. -/
def sDistinct : SSet where
  Name := "foo.example.com."
  typ := TypeA
  Records := [{ Address := "1.2.3.4", Priority := 0, Data := [] },
              { Address := "2.3.4.5", Priority := 0, Data := [] }]
  TTL := 0

/-- C8 witness: the amended theorem applied to an adjacent-duplicate set and
to a pairwise-distinct set. -/
theorem C8_duplicate_witness :
    setValidateErr sAdjDup = some .duplicateAddress ∧
    setValidateErr sDistinct = none := by
  constructor
  · refine (C8_setValidate_adjacent_duplicates _ (by decide) (by decide)
      (by decide) (by decide) (by decide) (by decide)).1 ?_
    intro hch
    have h1 := (hasAdjacentDup_eq_false_iff
      (sAdjDup.Records.map Record.Address)).mpr hch
    have h2 : hasAdjacentDup (sAdjDup.Records.map Record.Address) = true := by
      decide
    rw [h1] at h2
    exact Bool.noConfusion h2
  · refine (C8_setValidate_adjacent_duplicates _ (by decide) (by decide)
      (by decide) (by decide) (by decide) (by decide)).2 ?_
    refine List.Pairwise.cons ?_ (List.pairwise_singleton _ _)
    intro b hb
    simp only [List.map_cons, List.map_nil, List.mem_singleton] at hb
    subst hb
    decide

/-! ## A concrete zone used by several witnesses -/

/-- A well-formed zone with all defaults, used to instantiate theorems. -/
def zExample : Zone where
  Name := "example.com."
  MasterNameServer := "ns1.example.com."
  AllNameServers := ["ns1.example.com.", "ns2.example.com."]
  AdminEmail := ""
  Refresh := 0
  Retry := 0
  Expire := 0
  SOATTL := 0
  NSTTL := 0
  MinTTL := 0
  Handler := fun _ => .ok []

/-! ## Claim C9: the timer invariants of Zone.Validate -/

/-- C9: on a zone that passes the pre-timer checks, `Zone.Validate` rejects
with the retry error when (after defaulting) `Retry ≥ Refresh`, rejects
with the expire error when `Retry < Refresh` but
`Expire < Refresh + Retry`, and accepts every zone with `Retry < Refresh`
and `Expire ≥ Refresh + Retry`.  The range hypotheses keep the int64 sum of
the Go source from wrapping (every `time.Duration` below 2^62 ≈ 146 years
qualifies). -/
theorem C9_zoneValidate_timer_checks (z : Zone) (d : String)
    (hname : IsDomain z.Name true = true)
    (hmaster : IsDomain z.MasterNameServer true = true)
    (hcount : ¬ z.AllNameServers.length < 1)
    (hns : z.AllNameServers.all (fun ns => IsDomain ns true) = true)
    (hd : emailToDomain (defaultEmail z) = some d)
    (hdom : IsDomain d true = true)
    (hrr : 0 ≤ z.Refresh ∧ z.Refresh < 4611686018427387904)
    (hrt : 0 ≤ z.Retry ∧ z.Retry < 4611686018427387904)
    (hre : 0 ≤ z.Expire ∧ z.Expire < 4611686018427387904) :
    (defDur z.Refresh (6 * hourNS) ≤ defDur z.Retry hourNS →
      zoneValidate z = .err .retryNotLessThanRefresh) ∧
    (defDur z.Retry hourNS < defDur z.Refresh (6 * hourNS) →
      defDur z.Expire (72 * hourNS) <
        defDur z.Refresh (6 * hourNS) + defDur z.Retry hourNS →
      zoneValidate z = .err .expireTooSmall) ∧
    (defDur z.Retry hourNS < defDur z.Refresh (6 * hourNS) →
      defDur z.Refresh (6 * hourNS) + defDur z.Retry hourNS ≤
        defDur z.Expire (72 * hourNS) →
      vresIsOk (zoneValidate z) = true) := by
  have hbr : 0 ≤ defDur z.Refresh (6 * hourNS) ∧
      defDur z.Refresh (6 * hourNS) < 4611686018427387904 := by
    unfold defDur hourNS nsPerSecond
    split
    · omega
    · exact hrr
  have hbt : 0 ≤ defDur z.Retry hourNS ∧
      defDur z.Retry hourNS < 4611686018427387904 := by
    unfold defDur hourNS nsPerSecond
    split
    · omega
    · exact hrt
  have hwrap : wrap64 (defDur z.Refresh (6 * hourNS) + defDur z.Retry hourNS) =
      defDur z.Refresh (6 * hourNS) + defDur z.Retry hourNS :=
    wrap64_eq_self _ (by omega) (by omega)
  have key : zoneValidate z =
      (if defDur z.Refresh (6 * hourNS) ≤ defDur z.Retry hourNS then
        VRes.err .retryNotLessThanRefresh
      else if defDur z.Expire (72 * hourNS) <
          wrap64 (defDur z.Refresh (6 * hourNS) + defDur z.Retry hourNS) then
        VRes.err .expireTooSmall
      else VRes.ok { z with
        AllNameServers := sortStrings z.AllNameServers,
        AdminEmail := defaultEmail z,
        Refresh := defDur z.Refresh (6 * hourNS),
        Retry := defDur z.Retry hourNS,
        Expire := defDur z.Expire (72 * hourNS),
        SOATTL := defDur z.SOATTL (15 * minuteNS),
        NSTTL := defDur z.NSTTL (48 * hourNS),
        MinTTL := defDur z.MinTTL (5 * minuteNS) }) := by
    unfold zoneValidate
    rw [if_neg (fun hn => hn hname), if_neg (fun hn => hn hmaster),
      if_neg hcount, if_neg (fun hn => hn hns)]
    simp only [hd]
    rw [if_neg (fun hn => hn hdom)]
  refine ⟨?_, ?_, ?_⟩
  · intro h
    rw [key, if_pos h]
  · intro h1 h2
    rw [key, if_neg (by omega), if_pos (by rw [hwrap]; exact h2)]
  · intro h1 h2
    rw [key, if_neg (by omega), if_neg (by rw [hwrap]; omega)]
    rfl

/-- C9 witness: the theorem applied to the default zone (accepted) and to
the zone of the repository's own test with `Refresh=1, Retry=2`
(rejected). -/
theorem C9_timer_witness :
    vresIsOk (zoneValidate zExample) = true ∧
    zoneValidate { zExample with Refresh := 1, Retry := 2 } =
      .err .retryNotLessThanRefresh := by
  constructor
  · exact (C9_zoneValidate_timer_checks zExample "hostmaster.example.com."
      (by decide) (by decide) (by decide) (by decide) (by decide) (by decide)
      (by decide) (by decide) (by decide)).2.2 (by decide) (by decide)
  · exact (C9_zoneValidate_timer_checks _ "hostmaster.example.com."
      (by decide) (by decide) (by decide) (by decide) (by decide) (by decide)
      (by decide) (by decide) (by decide)).1 (by decide)

/-! ## Claim C10: partiality of emailToDomain -/

/-- The characters of the email before the first `@`. -/
def localPart (email : String) : List Char :=
  email.data.takeWhile (fun x => !(x = '@' : Bool))

/-- The characters of the email after the first `@` and before any second
`@` (Go indexes `parts[1]` of the split). -/
def domainPart (email : String) : List Char :=
  ((email.data.dropWhile (fun x => !(x = '@' : Bool))).tail).takeWhile
    (fun x => !(x = '@' : Bool))

/-- An email containing `@` converts to the escaped local part joined with
the domain, as an FQDN. -/
theorem emailToDomain_of_contains (email : String)
    (hc : email.data.contains '@' = true) :
    emailToDomain email = some (goFqdn
      (String.mk (escapeDots (localPart email)) ++ "." ++
        String.mk (domainPart email))) := by
  unfold emailToDomain
  rw [splitChar_eq '@' email.data, if_pos hc,
    splitChar_eq '@' ((email.data.dropWhile (fun x => !(x = '@' : Bool))).tail)]
  rfl

/-- C10: `emailToDomain` is partial exactly at emails without `@` (the Go
code would index out of range there, modelled by `none`); on emails with an
`@` it returns the `.`-escaped local part joined with the domain as an
FQDN; and `Zone.Validate` cannot reach the out-of-range indexing when the
configured `AdminEmail` contains an `@`. -/
theorem C10_emailToDomain_partial :
    (∀ email : String, email.data.contains '@' = true →
      emailToDomain email = some (goFqdn
        (String.mk (escapeDots (localPart email)) ++ "." ++
          String.mk (domainPart email)))) ∧
    (∀ email : String, email.data.contains '@' = false →
      emailToDomain email = none) ∧
    (∀ z : Zone, z.AdminEmail.data.contains '@' = true →
      vresIsPanic (zoneValidate z) = false) := by
  refine ⟨emailToDomain_of_contains, ?_, ?_⟩
  · intro email hc
    unfold emailToDomain
    rw [splitChar_eq '@' email.data, if_neg (fun hn => by rw [hc] at hn; exact Bool.noConfusion hn)]
  · intro z hz
    have hne : z.AdminEmail ≠ "" := by
      intro h
      rw [h] at hz
      exact Bool.noConfusion hz
    have hde : defaultEmail z = z.AdminEmail := by
      unfold defaultEmail
      rw [if_neg hne]
    obtain hd := emailToDomain_of_contains z.AdminEmail hz
    rw [← hde] at hd
    simp only [zoneValidate, hd]
    repeat' split
    all_goals rfl

/-- C10 witness: a concrete email with `@` (also exercising dot escaping),
one without, and a zone whose admin email contains `@`. -/
theorem C10_email_witness :
    emailToDomain "host.master@example.com." = some "host\\.master.example.com." ∧
    emailToDomain "hostmaster" = none ∧
    vresIsPanic (zoneValidate { zExample with AdminEmail := "hm@aws.com" }) =
      false := by
  refine ⟨?_, ?_, ?_⟩
  · have h := C10_emailToDomain_partial.1 "host.master@example.com." (by decide)
    rw [h]
    rfl
  · exact C10_emailToDomain_partial.2.1 "hostmaster" (by decide)
  · exact C10_emailToDomain_partial.2.2 _ (by decide)

/-! ## Claim C2: NXDOMAIN and NODATA results of the lookup loop -/

/-- C2: on its first iteration, if the zone handler returns no sets the
lookup returns `(nil, false, nil)` (NXDOMAIN to the caller); and if it
returns sets that validate, with no CNAME set and none matching a requested
type, the lookup returns `(nil, true, nil)` (NODATA: other types exist). -/
theorem C2_lookup_nxdomain_nodata (z : Zone) (name : String)
    (needle : List Nat) (sets : List SSet)
    (hs : z.Handler (TrimZone z.Name name) = .ok sets) :
    (sets = [] → ∀ fuel, lookup z name needle (fuel + 1) = some (.ok [] false)) ∧
    (sets ≠ [] → firstSetError sets = none →
      hasDupTypes (sets.map SSet.typ) = false →
      (∀ s ∈ sets, s.typ ≠ TypeCNAME) →
      (∀ s ∈ sets, s.typ ∉ needle) →
      ∀ fuel, lookup z name needle (fuel + 1) = some (.ok [] true)) := by
  constructor
  · intro hes fuel
    subst hes
    simp only [lookup, lookupGo]
    rw [hs]
    simp
  · intro hne h2 h3 h4 h5 fuel
    have hcn : ¬ ∃ s ∈ sets, s.typ = TypeCNAME := by
      intro ⟨s, hm, he⟩
      exact h4 s hm he
    have hfind : sets.find? (fun s => decide (s.typ ∈ needle)) = none := by
      rw [List.find?_eq_none]
      intro x hx
      simp only [decide_eq_true_eq]
      exact h5 x hx
    simp only [lookup, lookupGo]
    rw [hs]
    simp only [h2, hfind]
    rw [if_neg (fun h => hne h.2), if_neg (by rw [h3]; exact Bool.noConfusion),
      if_neg (fun h => hcn h.1), if_neg (fun h => hcn h.1),
      if_neg (fun h => hcn h.1)]
    simp

/-- A TXT set used by the C2 witness zone. -/
def setTXTW : SSet where
  Name := "txt.example.com."
  typ := TypeTXT
  Records := [{ Address := "", Priority := 0, Data := ["hello"] }]
  TTL := 300000000000

/-- A zone that owns only a TXT set at `txt`. -/
def zNodata : Zone :=
  { zExample with
      Handler := fun n => if n = "txt" then .ok [setTXTW] else .ok [] }

/-- C2 witness: NXDOMAIN on a missing name, NODATA on an A query for the
TXT-only name. -/
theorem C2_lookup_witness :
    lookup zNodata "gone.example.com." [TypeA] 1 = some (.ok [] false) ∧
    lookup zNodata "txt.example.com." [TypeA] 1 = some (.ok [] true) := by
  constructor
  · exact (C2_lookup_nxdomain_nodata zNodata "gone.example.com." [TypeA] []
      (by rfl)).1 rfl 0
  · exact (C2_lookup_nxdomain_nodata zNodata "txt.example.com." [TypeA]
      [setTXTW] (by rfl)).2 (by decide) (by decide) (by decide) (by decide)
      (by decide) 0

/-! ## Claim C1: the lookup loop has no iteration bound -/

/-- C1 (amended): the `for i := 0; ; i++` loop of `Server.lookup` contains
no iteration bound.  Whenever the zone handler serves, at every name in a
set `C` of names closed under CNAME targets, a single valid stand-alone
in-zone CNAME set whose target is again in `C` (an in-zone CNAME cycle),
and the query does not ask for CNAME, the loop never returns: after any
number of iterations it is still running. -/
theorem C1_lookup_loop_unbounded (z : Zone) (needle : List Nat)
    (C : String → Prop)
    (hneedle : TypeCNAME ∉ needle)
    (hC : ∀ n, C n → ∃ s r rest, z.Handler (TrimZone z.Name n) = .ok [s] ∧
      setValidateErr s = none ∧ s.typ = TypeCNAME ∧ n ≠ z.Name ∧
      s.Records = r :: rest ∧ InZone z.Name r.Address = true ∧ C r.Address) :
    ∀ fuel i name res, C name → lookupGo z needle fuel i name res = none := by
  intro fuel
  induction fuel with
  | zero => intro i name res _; rfl
  | succ fuel ih =>
    intro i name res hc
    obtain ⟨s, r, rest, hh, hv, ht, hnz, hr, hin, hc'⟩ := hC name hc
    simp only [lookupGo, hh]
    rw [if_neg (fun h => List.cons_ne_nil s [] h.2)]
    simp only [firstSetError, hv]
    have hdup : hasDupTypes (List.map SSet.typ [s]) = false := by
      simp [hasDupTypes]
    rw [if_neg (by rw [hdup]; exact fun h => Bool.noConfusion h),
      if_neg (fun h => hnz h.2),
      if_neg (fun h => absurd h.2 (by simp)),
      if_pos ⟨⟨s, List.mem_singleton_self s, ht⟩, hneedle⟩]
    simp only [hr]
    rw [if_pos hin]
    exact ih (i + 1) r.Address (res ++ [{ name := name, set := s }]) hc'

/-- The CNAME set at `a.example.com.` pointing to `b.example.com.`. -/
def setCNa : SSet where
  Name := "a.example.com."
  typ := TypeCNAME
  Records := [{ Address := "b.example.com.", Priority := 0, Data := [] }]
  TTL := 300000000000

/-- The CNAME set at `b.example.com.` pointing back to `a.example.com.`. -/
def setCNb : SSet where
  Name := "b.example.com."
  typ := TypeCNAME
  Records := [{ Address := "a.example.com.", Priority := 0, Data := [] }]
  TTL := 300000000000

/-- A zone whose handler defines the in-zone CNAME cycle
`a.example.com. → b.example.com. → a.example.com.` with fully valid sets. -/
def zCycle : Zone :=
  { zExample with
      Handler := fun n =>
        if n = "a" then .ok [setCNa]
        else if n = "b" then .ok [setCNb] else .ok [] }

/-- C1 counterexample: on the cyclic zone, the lookup loop has not returned
after the claimed bound of 8 iterations — nor after 100 (`none` means the
loop is still running after that many unfoldings of the loop body), so it
does not halt at the iteration bound the claim describes. -/
theorem C1_cycle_counterexample :
    lookup zCycle "a.example.com." [TypeA] 8 = none ∧
    lookup zCycle "a.example.com." [TypeA] 100 = none := by
  decide

/-- C1 witness: the amended theorem applied to the concrete cyclic zone. -/
theorem C1_cycle_witness :
    lookupGo zCycle [TypeA] 5 0 "a.example.com." [] = none := by
  refine C1_lookup_loop_unbounded zCycle [TypeA]
    (fun n => n = "a.example.com." ∨ n = "b.example.com.") (by decide)
    ?_ 5 0 "a.example.com." [] (Or.inl rfl)
  intro n hn
  rcases hn with h | h
  · subst h
    exact ⟨setCNa, { Address := "b.example.com.", Priority := 0, Data := [] },
      [], by rfl, by decide, by decide, by decide, by rfl, by decide,
      Or.inr rfl⟩
  · subst h
    exact ⟨setCNb, { Address := "a.example.com.", Priority := 0, Data := [] },
      [], by rfl, by decide, by decide, by decide, by rfl, by decide,
      Or.inl rfl⟩

/-! ## Claim C4: names outside the zone -/

/-- C4: the zone lookup on a name that does not lie within the zone's name
fails with the NotInZone error and returns no results. -/
theorem C4_zoneLookup_not_in_zone (z : Zone) (name : String)
    (needle : List Nat) (h : InZone z.Name name = false) :
    zoneLookup z name needle = .err .notInZone := by
  unfold zoneLookup
  rw [if_pos (fun hc => Bool.noConfusion (h.symm.trans hc))]

/-- C4 witness: the very call of the repository's zone test
(`zone.Lookup("foo", A)` on `example.com.`). -/
theorem C4_zoneLookup_witness :
    zoneLookup zExample "foo" [TypeA] = .err .notInZone :=
  C4_zoneLookup_not_in_zone zExample "foo" [TypeA] (by decide)

/-! ## Claim C3: UDP replies fit the buffer or are truncated -/

/-- C3: every reply sent over UDP either has wire length at most the
effective buffer limit (the client's advertised EDNS UDP size when present,
otherwise 512), or carries TC=1, RCODE=NOERROR and empty answer, authority
and additional sections. -/
theorem C3_udp_reply_fits_or_truncated (lenFn : DnsMsg → Nat) (rq : DnsReq)
    (rs : DnsMsg) :
    lenFn (writeMessage lenFn rq true rs) ≤ effectiveBuffer rq ∨
    ((writeMessage lenFn rq true rs).truncated = true ∧
      (writeMessage lenFn rq true rs).rcode = 0 ∧
      (writeMessage lenFn rq true rs).answer = [] ∧
      (writeMessage lenFn rq true rs).ns = [] ∧
      (writeMessage lenFn rq true rs).extra = []) := by
  unfold writeMessage
  by_cases h : (true : Bool) = true ∧ effectiveBuffer rq < lenFn rs
  · rw [if_pos h]
    right
    exact ⟨rfl, rfl, rfl, rfl, rfl⟩
  · rw [if_neg h]
    left
    have hle : ¬ effectiveBuffer rq < lenFn rs := fun hlt => h ⟨rfl, hlt⟩
    omega

/-! ## Claim C6: unsupported query types -/

/-- C6: a query of class IN whose type is unsupported (not A, AAAA, CNAME,
MX or TXT, with ANY and the apex SOA/NS shortcuts handled earlier), against
a zone that resolves and validates, is answered with RCODE=NXDOMAIN and
exactly one SOA record in the authority section. -/
theorem C6_unsupported_type_nxdomain_soa (cfg : Config) (lenFn : DnsMsg → Nat)
    (rq : DnsReq) (z z' : Zone)
    (hclass : rq.question.Qclass = 1)
    (hver : ∀ e, rq.edns = some e → e.version = 0)
    (hany : rq.question.Qtype ≠ TypeANY)
    (hz : cfg.Handler (lowerStr rq.question.Name) = .ok (some z))
    (hval : zoneValidate z = .ok z')
    (hsoa : ¬ (rq.question.Qtype = TypeSOA ∧ lowerStr rq.question.Name = z'.Name))
    (hns : ¬ (rq.question.Qtype = TypeNS ∧ lowerStr rq.question.Name = z'.Name))
    (hvalid : typeValid rq.question.Qtype = false) :
    ∃ m, handlerDispatch cfg lenFn false rq = .reply m ∧
      m.rcode = 3 ∧ m.ns = [mkSOA z'] ∧ m.answer = [] := by
  have hty : ¬ typeValid rq.question.Qtype = true :=
    fun hc => Bool.noConfusion (hvalid.symm.trans hc)
  cases hre : rq.edns with
  | none =>
    simp only [handlerDispatch, hre]
    rw [if_neg (fun h => h hclass),
      if_neg (fun hx => by obtain ⟨e, he, _⟩ := hx; exact Option.noConfusion he),
      if_neg hany]
    simp only [hz, hval]
    rw [if_neg hsoa, if_neg hns, if_pos hty]
    exact ⟨_, rfl, rfl, rfl, rfl⟩
  | some e =>
    simp only [handlerDispatch, hre]
    rw [if_neg (fun h => h hclass),
      if_neg (fun hx => by
        obtain ⟨e2, he2, hv2⟩ := hx
        have hv0 : e.version = 0 := hver e hre
        exact hv2 ((Option.some.inj he2).symm ▸ hv0)),
      if_neg hany]
    simp only [hz, hval]
    rw [if_neg hsoa, if_neg hns, if_pos hty]
    exact ⟨_, rfl, rfl, rfl, rfl⟩

/-- The zone `zExample` after validation: sorted name servers, defaulted
email and timers. -/
def zExampleV : Zone :=
  { zExample with
      AdminEmail := "hostmaster@example.com.",
      Refresh := 6 * hourNS, Retry := hourNS, Expire := 72 * hourNS,
      SOATTL := 15 * minuteNS, NSTTL := 48 * hourNS, MinTTL := 5 * minuteNS }

/-- The configuration serving `zExample` for every name below it. -/
def cfg6 : Config where
  BufferSize := 1220
  Handler := fun n =>
    if n = "foo.example.com." then .ok (some zExample) else .ok none

/-- A class-IN query for the unsupported type 99 (SPF). -/
def rq6 : DnsReq where
  question := { Name := "FOO.example.com.", Qtype := 99, Qclass := 1 }
  edns := none

/-- C6 witness: the theorem applied to a type-99 query on a concrete
zone. -/
theorem C6_unsupported_type_witness :
    ∃ m, handlerDispatch cfg6 (fun _ => 0) false rq6 = .reply m ∧
      m.rcode = 3 ∧ m.ns = [mkSOA zExampleV] ∧ m.answer = [] :=
  C6_unsupported_type_nxdomain_soa cfg6 (fun _ => 0) rq6 zExample zExampleV
    rfl (fun e he => Option.noConfusion he) (by decide) (by rfl)
    (by with_unfolding_all rfl) (by decide) (by decide) (by decide)

/-! ## Claim C7: effective TTLs and the zone minimum -/

/-- C7 (amended): records converted from sets carry the converted seconds of
`max(set.TTL, zone.MinTTL)`, which is at least the converted `MinTTL` (for
durations whose seconds fit 32 bits).  SOA and NS records are built from
`SOATTL`/`NSTTL` without this clamp, so the bound holds for set-derived
answer and additional records but not for every record of every
response. -/
theorem C7_convert_clamps_set_ttl (query : String) (z : Zone) (s : SSet)
    (h1 : 0 ≤ s.TTL) (h2 : 0 ≤ z.MinTTL) (h3 : s.TTL ≤ maxDur)
    (h4 : z.MinTTL ≤ maxDur) :
    ∀ rr ∈ serverConvert query z s,
      rrTTL rr = durationToTime (max s.TTL z.MinTTL) ∧
      durationToTime z.MinTTL ≤ rrTTL rr := by
  intro rr hrr
  have httl : (if s.TTL < z.MinTTL then durationToTime z.MinTTL
      else durationToTime s.TTL) = durationToTime (max s.TTL z.MinTTL) := by
    by_cases hlt : s.TTL < z.MinTTL
    · rw [if_pos hlt, max_eq_right (le_of_lt hlt)]
    · rw [if_neg hlt, max_eq_left (le_of_not_lt hlt)]
  have hle : durationToTime z.MinTTL ≤ durationToTime (max s.TTL z.MinTTL) :=
    durationToTime_le_of_le _ _ h2 (max_le h3 h4) (le_max_right _ _)
  simp only [serverConvert, List.mem_filterMap] at hrr
  obtain ⟨r, hr, hf⟩ := hrr
  rw [httl] at hf
  split_ifs at hf with t1 t2 t3 t4 t5
  all_goals first
    | exact Option.noConfusion hf
    | (cases hf
       simp only [rrTTL]
       exact ⟨trivial, hle⟩)

/-- A zone configured with a one-second SOA TTL and the default (5 minute)
minimum TTL. -/
def z7 : Zone := { zExample with SOATTL := nsPerSecond }

/-- A configuration serving `z7`. -/
def cfg7 : Config where
  BufferSize := 1220
  Handler := fun _ => .ok (some z7)

/-- A class-IN query for the unsupported type 99 below `z7`. -/
def rq7 : DnsReq where
  question := { Name := "foo.example.com.", Qtype := 99, Qclass := 1 }
  edns := none

/-- Whether a written reply carries some record with TTL below `t`. -/
def replyHasTTLBelow (out : HandlerOut) (t : Nat) : Bool :=
  match replyOf out with
  | some m => (m.answer ++ m.ns ++ m.extra).any (fun rr => decide (rrTTL rr < t))
  | none => false

/-- C7 counterexample: for `z7` the validated minimum TTL converts to 300
seconds, yet the NXDOMAIN reply the server writes for an unsupported type
carries its SOA authority record with TTL 1 — a record of a response whose
effective TTL is below the zone's MinTTL. -/
theorem C7_ttl_counterexample :
    durationToTime (vresMinTTL (zoneValidate z7)) = 300 ∧
    replyHasTTLBelow (handlerDispatch cfg7 (fun _ => 0) false rq7) 300 =
      true := by
  decide

/-- A zone whose minimum TTL is 5 minutes. -/
def zMin : Zone := { zExample with MinTTL := 300000000000 }

/-- An A set with a 60-second TTL, below the zone minimum. -/
def sShort : SSet where
  Name := "a.example.com."
  typ := TypeA
  Records := [{ Address := "1.2.3.4", Priority := 0, Data := [] }]
  TTL := 60000000000

/-- C7 witness: the amended theorem applied to a concrete converted record
(the 60s set TTL is raised to the 300s zone minimum). -/
theorem C7_ttl_witness :
    rrTTL (RR.a "a.example.com." 300 "1.2.3.4") =
      durationToTime (max sShort.TTL zMin.MinTTL) ∧
    durationToTime zMin.MinTTL ≤ rrTTL (RR.a "a.example.com." 300 "1.2.3.4") :=
  C7_convert_clamps_set_ttl "a.example.com." zMin sShort (by decide)
    (by decide) (by decide) (by decide) (RR.a "a.example.com." 300 "1.2.3.4")
    (by decide)

end newdns
